import Mathlib

/-!
Verification of the protocol-ctf harness: a shallow embedding of the
chain-fixture loader (`loadChain`, `blocksFromFile`), the client process
controller (`gethClient` with `Init`, `Start`, `Running`, `Close`), and the
verification drivers (the inline and harness variants of `checkFlag`), with
theorems settling the behavioural claims about them.

External collaborators (the RLP stream decoder, gzip, the geth subprocess,
the JSON-RPC client) are modelled as function parameters supplying their
observable outcomes, exactly where the Go code calls out to them.
-/

namespace ProtocolCTF

/-! ## Chain fixture loader data model -/

/-- A decoded block: the fields the harness inspects are the sequence number
(`b.NumberU64()` in the source) and the content hash (`b.Hash()`), modelled
as naturals. -/
structure Block where
  number : Nat
  hash : Nat
deriving DecidableEq

/-- One `stream.Decode` outcome of the RLP stream in `blocksFromFile`:
either a decoded block or a decode error with its cause; end of the list is
`io.EOF`. -/
inductive StreamItem where
  | ok (b : Block)
  | err (cause : String)
deriving DecidableEq

/-- The loader's error taxonomy, mirroring the `fmt.Errorf` payloads of the
source: `decodeError i c` is `at block index %d: %v`, `sequenceError i n` is
`block at index %d has wrong number %d`, `gzipError`/`genesisError` carry the
underlying cause. -/
inductive LoadError where
  | gzipError (cause : String)
  | genesisError (cause : String)
  | decodeError (index : Nat) (cause : String)
  | sequenceError (index : Nat) (got : Nat)
deriving DecidableEq

/-- The genesis description deserialized from `genesis.json`
(`core.Genesis`): chain identifier, difficulty, base fee and the account
pre-allocations the harness passes through. -/
structure Genesis where
  chainId : Nat
  difficulty : Nat
  baseFee : Nat
  alloc : List (Nat × Nat)
deriving DecidableEq

/-- The `Chain` structure of the source: the parsed genesis, the block list
(genesis block at position 0), and the chain config taken from the genesis. -/
structure Chain where
  genesis : Genesis
  blocks : List Block
  chainConfig : Nat
deriving DecidableEq

/-- A chain file on disk: its name (used for the `.gz` suffix check) and its
byte content. -/
structure ChainFile where
  name : String
  content : List Nat
deriving DecidableEq

/-- Go's `strings.HasSuffix`. -/
def hasSuffix (s suffix : String) : Bool :=
  suffix.data.isSuffixOf s.data

/-- The byte stream handed to the RLP decoder in `blocksFromFile`: the file
content, run through the gzip decompressor when the file name ends in
`.gz`. -/
def effectiveBytes (gunzip : List Nat → Except String (List Nat))
    (f : ChainFile) : Except String (List Nat) :=
  if hasSuffix f.name ".gz" then gunzip f.content else Except.ok f.content

/-- The decode loop of `blocksFromFile` (`for i := 0; ; i++`), over the
stream items produced by the RLP decoder: a decode error at index `i` is
fatal (`decodeError i cause`); a block whose number is not `i+1` is fatal
(`sequenceError i number`); otherwise the block is appended and decoding
continues until end of stream. -/
def decodeBlocks (items : List StreamItem) (i : Nat) :
    Except LoadError (List Block) :=
  match items with
  | [] => Except.ok []
  | StreamItem.err cause :: _ => Except.error (LoadError.decodeError i cause)
  | StreamItem.ok b :: rest =>
    if b.number = i + 1 then
      match decodeBlocks rest (i + 1) with
      | Except.ok bs => Except.ok (b :: bs)
      | Except.error e => Except.error e
    else Except.error (LoadError.sequenceError i b.number)

/-- The blocks successfully carried by a stream (those of its `ok` items). -/
def okBlocks (items : List StreamItem) : List Block :=
  items.filterMap (fun it =>
    match it with
    | StreamItem.ok b => some b
    | StreamItem.err _ => none)

/-- `blocksFromFile`: opens the chain file, transparently decompresses when
the name ends in `.gz`, then decodes blocks until end of stream, starting
from a block slice that holds the genesis block at position 0. `gunzip`
models `gzip.NewReader` and `rlpDecode` models the sequence of
`rlp.Stream.Decode` outcomes on the given bytes. -/
def blocksFromFile (gunzip : List Nat → Except String (List Nat))
    (rlpDecode : List Nat → List StreamItem)
    (f : ChainFile) (gblock : Block) : Except LoadError (List Block) :=
  match effectiveBytes gunzip f with
  | Except.error e => Except.error (LoadError.gzipError e)
  | Except.ok bytes =>
    match decodeBlocks (rlpDecode bytes) 0 with
    | Except.ok bs => Except.ok (gblock :: bs)
    | Except.error e => Except.error e

/-- `loadChain`: parses the genesis (`genesisResult` models
`loadGenesis`), derives the genesis block deterministically from it
(`toBlock` models `gen.ToBlock()`), loads the block stream, and returns the
`Chain` record; every underlying failure is returned and no chain is
produced. -/
def loadChain (gunzip : List Nat → Except String (List Nat))
    (rlpDecode : List Nat → List StreamItem)
    (toBlock : Genesis → Block)
    (genesisResult : Except String Genesis)
    (f : ChainFile) : Except LoadError Chain :=
  match genesisResult with
  | Except.error e => Except.error (LoadError.genesisError e)
  | Except.ok gen =>
    match blocksFromFile gunzip rlpDecode f (toBlock gen) with
    | Except.error e => Except.error e
    | Except.ok blocks =>
      Except.ok { genesis := gen, blocks := blocks, chainConfig := gen.chainId }

/-! ## Loader lemmas -/

/-- On success, the decode loop returns exactly the blocks of the stream, and
every stream item at offset `k` is a decoded block numbered `i + k + 1`. -/
theorem decodeBlocks_ok (items : List StreamItem) :
    ∀ (i : Nat) (bs : List Block), decodeBlocks items i = Except.ok bs →
      bs = okBlocks items ∧
      ∀ (k : Nat) (it : StreamItem), items[k]? = some it →
        ∃ b, it = StreamItem.ok b ∧ b.number = i + k + 1 := by
  induction items with
  | nil =>
    intro i bs h
    simp only [decodeBlocks, Except.ok.injEq] at h
    refine ⟨h.symm, ?_⟩
    intro k it hk
    simp at hk
  | cons hd tl ih =>
    intro i bs h
    cases hd with
    | err cause => simp [decodeBlocks] at h
    | ok b =>
      rw [decodeBlocks] at h
      by_cases hb : b.number = i + 1
      · rw [if_pos hb] at h
        cases htl : decodeBlocks tl (i + 1) with
        | error e => rw [htl] at h; simp at h
        | ok bs' =>
          rw [htl] at h
          simp only [Except.ok.injEq] at h
          obtain ⟨ih1, ih2⟩ := ih (i + 1) bs' htl
          refine ⟨?_, ?_⟩
          · rw [← h, ih1]; simp [okBlocks]
          · intro k it hk
            cases k with
            | zero =>
              simp only [List.getElem?_cons_zero, Option.some.injEq] at hk
              exact ⟨b, hk.symm, by omega⟩
            | succ k' =>
              simp only [List.getElem?_cons_succ] at hk
              obtain ⟨b', hb', hn⟩ := ih2 k' it hk
              exact ⟨b', hb', by omega⟩
      · rw [if_neg hb] at h
        simp at h

/-- If every stream item before offset `j` is a correctly numbered block and
the item at `j` is a block carrying the wrong number, the decode loop fails
with `sequenceError` at absolute index `i + j` reporting that number. -/
theorem decodeBlocks_seq_error (items : List StreamItem) :
    ∀ (i j : Nat) (b : Block), items[j]? = some (StreamItem.ok b) →
      b.number ≠ i + j + 1 →
      (∀ (k : Nat) (it : StreamItem), k < j → items[k]? = some it →
        ∃ bk, it = StreamItem.ok bk ∧ bk.number = i + k + 1) →
      decodeBlocks items i =
        Except.error (LoadError.sequenceError (i + j) b.number) := by
  induction items with
  | nil => intro i j b hj; simp at hj
  | cons hd tl ih =>
    intro i j b hj hne hpre
    cases j with
    | zero =>
      simp only [List.getElem?_cons_zero, Option.some.injEq] at hj
      subst hj
      rw [decodeBlocks]
      rw [if_neg (by omega)]
      simp
    | succ j' =>
      obtain ⟨b0, hb0, hn0⟩ := hpre 0 hd (Nat.succ_pos j') (by simp)
      subst hb0
      rw [decodeBlocks]
      rw [if_pos (by omega)]
      have hrec := ih (i + 1) j' b (by simpa using hj) (by omega) ?_
      · rw [hrec]
        have : i + 1 + j' = i + (j' + 1) := by omega
        rw [this]
      · intro k it hk hkit
        obtain ⟨bk, hbk, hnk⟩ := hpre (k + 1) it (by omega) (by simpa using hkit)
        exact ⟨bk, hbk, by omega⟩

/-- If every stream item before offset `j` is a correctly numbered block and
the item at `j` is a decode failure, the loop fails with `decodeError` at
absolute index `i + j` carrying the cause. -/
theorem decodeBlocks_decode_error (items : List StreamItem) :
    ∀ (i j : Nat) (cause : String), items[j]? = some (StreamItem.err cause) →
      (∀ (k : Nat) (it : StreamItem), k < j → items[k]? = some it →
        ∃ bk, it = StreamItem.ok bk ∧ bk.number = i + k + 1) →
      decodeBlocks items i =
        Except.error (LoadError.decodeError (i + j) cause) := by
  induction items with
  | nil => intro i j cause hj; simp at hj
  | cons hd tl ih =>
    intro i j cause hj hpre
    cases j with
    | zero =>
      simp only [List.getElem?_cons_zero, Option.some.injEq] at hj
      subst hj
      rw [decodeBlocks]
      simp
    | succ j' =>
      obtain ⟨b0, hb0, hn0⟩ := hpre 0 hd (Nat.succ_pos j') (by simp)
      subst hb0
      rw [decodeBlocks]
      rw [if_pos (by omega)]
      have hrec := ih (i + 1) j' cause (by simpa using hj) ?_
      · rw [hrec]
        have : i + 1 + j' = i + (j' + 1) := by omega
        rw [this]
      · intro k it hk hkit
        obtain ⟨bk, hbk, hnk⟩ := hpre (k + 1) it (by omega) (by simpa using hkit)
        exact ⟨bk, hbk, by omega⟩

/-! ## Client process controller (the harness package) -/

/-- The harness network constants. -/
def NETWORKPORT : String := "33333"

/-- The RPC host the client binds to. -/
def HOST : String := "localhost"

/-- The RPC port the client binds to. -/
def PORT : String := "8545"

/-- The six log levels of the harness, in source order (`None = iota`,
then `Err`, `Warn`, `Info`, `Debug`, `Trace`). -/
inductive LogLevel where
  | None
  | Err
  | Warn
  | Info
  | Debug
  | Trace
deriving DecidableEq

/-- The numeric value of a log level (the Go constants are consecutive
integers from 0). -/
def LogLevel.toNat : LogLevel → Nat
  | .None => 0
  | .Err => 1
  | .Warn => 2
  | .Info => 3
  | .Debug => 4
  | .Trace => 5

/-- `harness.ParseLogLevel`: the switch over the level strings; any other
string yields the `unknown log level` error. -/
def ParseLogLevel (s : String) : Except String LogLevel :=
  if s = "none" then Except.ok LogLevel.None
  else if s = "error" then Except.ok LogLevel.Err
  else if s = "warn" then Except.ok LogLevel.Warn
  else if s = "info" then Except.ok LogLevel.Info
  else if s = "debug" then Except.ok LogLevel.Debug
  else if s = "Trace" then Except.ok LogLevel.Trace
  else Except.error ("unknown log level: " ++ s)

/-- `harness.ClientArgs`. -/
structure ClientArgs where
  FakePow : Bool
  LogLevel : LogLevel
  DataDir : String
  GenesisPath : String
  ChainPath : String
deriving DecidableEq

/-- An OS process handle (`*os.Process`). -/
structure Process where
  pid : Nat
deriving DecidableEq

/-- An `*exec.Cmd`: its `Process` field is set only once the command has
been started successfully. -/
structure Cmd where
  process : Option Process
deriving DecidableEq

/-- `harness.gethClient`: the command handle (`cmd` is the nil pointer
`none` until `Start` assigns it), the client path and the arguments. -/
structure gethClient where
  cmd : Option Cmd
  path : String
  args : ClientArgs
deriving DecidableEq

/-- `newGethClient`: only `path` and `args` are set; `cmd` is left nil. -/
def newGethClient (path : String) (args : ClientArgs) : gethClient :=
  { cmd := none, path := path, args := args }

/-- `gethBin`. -/
def gethBin (root : String) : String := root ++ "/build/bin/geth"

/-- `maybePrepend`: prepends the extra options when `shouldAdd` is set
(`append(maybe, options...)`). -/
def maybePrepend (shouldAdd : Bool) (options maybe : List String) :
    List String :=
  if shouldAdd then maybe ++ options else options

/-- `gethClient.HttpAddr`. -/
def gethClient.HttpAddr (_g : gethClient) : String :=
  "http://" ++ HOST ++ ":" ++ PORT

/-- The observable effect of a successful `gethClient.Close`: which process
was killed and which directory was recursively removed. -/
structure CloseEffect where
  killedPid : Nat
  removedDir : String
deriving DecidableEq

/-- `gethClient.Close`: kills `g.cmd.Process`, waits for exit, removes the
data directory, and returns a nil error. The result is `none` exactly when
the Go code dereferences a nil pointer — `g.cmd` nil (no `Start` ever ran)
or `g.cmd.Process` nil (the command never started successfully) — i.e. a
runtime panic; otherwise it is the effect paired with the returned error
(always nil). -/
def gethClient.Close (g : gethClient) :
    Option (CloseEffect × Option String) :=
  match g.cmd with
  | none => none
  | some c =>
    match c.process with
    | none => none
    | some p =>
      some ({ killedPid := p.pid, removedDir := g.args.DataDir }, none)

/-- A subprocess invocation: the binary and its argument list. -/
structure Invocation where
  bin : String
  args : List String
deriving DecidableEq

/-- The `geth init` invocation built by `gethClient.Init` (datadir and
verbosity options, the `init` subcommand on the genesis path, with
`--fakepow` prepended when configured). -/
def initInvocation (g : gethClient) : Invocation :=
  { bin := gethBin g.path
    args := maybePrepend g.args.FakePow
      ["--datadir=" ++ g.args.DataDir,
       "--verbosity=" ++ toString g.args.LogLevel.toNat,
       "init", g.args.GenesisPath]
      ["--fakepow"] }

/-- The `geth import` invocation built by `gethClient.Init`. -/
def importInvocation (g : gethClient) : Invocation :=
  { bin := gethBin g.path
    args := maybePrepend g.args.FakePow
      ["--datadir=" ++ g.args.DataDir,
       "--verbosity=" ++ toString g.args.LogLevel.toNat,
       "import", g.args.ChainPath]
      ["--fakepow"] }

/-- `gethClient.Init`: runs `geth init` on the genesis file and then
`geth import` on the chain file through `runCmd`, returning the first
error. `exec` models `runCmd`'s outcome per invocation (`none` = the
command exited successfully). The first component lists the invocations
actually run, in order. -/
def gethClient.Init (exec : Invocation → Option String) (g : gethClient) :
    List Invocation × Option String :=
  match exec (initInvocation g) with
  | some e => ([initInvocation g], some e)
  | none =>
    match exec (importInvocation g) with
    | some e => ([initInvocation g, importInvocation g], some e)
    | none => ([initInvocation g, importInvocation g], none)

/-- One readiness-poll attempt of `gethClient.Running`: the dial failing
(client may still be starting), the dial succeeding but the `BlockNumber`
probe failing, or the probe succeeding. -/
inductive Attempt where
  | dialErr
  | blockNumberErr
  | success
deriving DecidableEq

/-- The loop of `gethClient.Running` in discrete time: each iteration takes
one time unit and consults the attempt outcome at the current time; the
`select` observes the context's `Done` channel, which is ready exactly when
the current time has reached the deadline, and then returns `false` without
further attempts. `remaining` is the number of iterations until the
deadline. Returns the readiness boolean, the time at which the loop
returned, and the times at which a dial attempt was made. -/
def runningSteps (attempt : Nat → Attempt) :
    Nat → Nat → Bool × Nat × List Nat
  | 0, t => (false, t, [])
  | n + 1, t =>
    match attempt t with
    | Attempt.success => (true, t, [t])
    | Attempt.dialErr =>
      let r := runningSteps attempt n (t + 1)
      (r.1, r.2.1, t :: r.2.2)
    | Attempt.blockNumberErr =>
      let r := runningSteps attempt n (t + 1)
      (r.1, r.2.1, t :: r.2.2)

/-- `gethClient.Running(ctx)` under a context whose deadline is `deadline`,
entered at time `t`: the `Done` branch fires at times `≥ deadline`, so
`deadline - t` loop iterations remain. -/
def gethClient.Running (_g : gethClient) (attempt : Nat → Attempt)
    (deadline t : Nat) : Bool × Nat × List Nat :=
  runningSteps attempt (deadline - t) t

/-! ## Verification drivers -/

/-- The hard-coded expected head-block hash of the inline verifiers
(`common.HexToHash("0x31553f1bb856b900a24d456f51ac4372fa57e08c5a16812db3ff87e63320bf26")`). -/
def expectedHash : Nat :=
  0x31553f1bb856b900a24d456f51ac4372fa57e08c5a16812db3ff87e63320bf26

/-- A head-chain RPC query issued by a verification driver:
`eth.BlockByNumber(ctx, n)` or `eth.BlockNumber(ctx)`. -/
inductive RpcCall where
  | blockByNumber (n : Nat)
  | blockNumber
deriving DecidableEq

/-- The outcomes of the external steps of the inline `checkFlag` variant:
`runGeth`, `startConsole` (dev mode only), `node.Attach`, and the
`BlockByNumber` RPC query (`some e` / `.error e` meaning the step failed
with error `e`). -/
structure InlineEnv where
  runGeth : Option String
  startConsole : Option String
  attach : Option String
  blockByNumber : Except String Block

/-- The inline variant of `checkFlag`: starts geth, optionally opens the
console in dev mode, attaches an RPC connection — note the source returns a
nil error when `Attach` fails — then fetches block 1 and compares its hash
against the hard-coded expected hash. Returns the head-chain RPC queries
issued and the returned error (`none` = checkFlag returned nil). -/
def checkFlag (devMode : Bool) (env : InlineEnv) :
    List RpcCall × Option String :=
  match env.runGeth with
  | some e => ([], some e)
  | none =>
    match (if devMode then env.startConsole else none) with
    | some e => ([], some e)
    | none =>
      match env.attach with
      | some _ => ([], none)
      | none =>
        match env.blockByNumber with
        | Except.error e => ([RpcCall.blockByNumber 1], some e)
        | Except.ok b =>
          if b.hash = expectedHash then ([RpcCall.blockByNumber 1], none)
          else ([RpcCall.blockByNumber 1], some "could not load chain")

/-- The observable outcome of a `main` run: the confirmation lines printed
to standard output, the diagnostic lines printed to the error stream, and
the process exit status. -/
structure ProgOutput where
  stdout : List String
  errStream : List String
  exitCode : Nat
deriving DecidableEq

/-- The inline variant of `main` after flag parsing: on a non-nil
`checkFlag` error it prints `Flag not captured: <err>` to the error stream
and exits 1; otherwise it prints `Flag captured.` and exits 0. -/
def mainInline (devMode : Bool) (env : InlineEnv) : ProgOutput :=
  match (checkFlag devMode env).2 with
  | some e =>
    { stdout := [], errStream := ["Flag not captured: " ++ e], exitCode := 1 }
  | none => { stdout := ["Flag captured."], errStream := [], exitCode := 0 }

/-- The outcomes of the external steps of the harness `checkFlag` variant:
`makeDataDir`, `harness.NewClient`, `Compile`, `Init`, `Start`, the
`Running` readiness poll, `ethclient.DialContext`, and the `BlockNumber`
head query. -/
structure HarnessEnv where
  makeDataDir : Option String
  newClient : Option String
  compileStep : Option String
  initStep : Option String
  startStep : Option String
  running : Bool
  dial : Option String
  blockNumber : Except String Nat

/-- The harness variant of `checkFlag`: parses the log level, makes the
data directory, creates the client, compiles it (unless skipped),
initializes and starts it, polls readiness with a 3-second deadline, dials
the RPC endpoint, then issues the single `BlockNumber` head query and
requires the answer to be `1`. Each stage error is returned unchanged.
Returns the head-chain queries issued by the driver (the readiness poll's
probes are part of `Running`, not of this trace) and the returned error. -/
def harnessCheckFlag (logLevelStr : String) (skipCompile : Bool)
    (env : HarnessEnv) : List RpcCall × Option String :=
  match ParseLogLevel logLevelStr with
  | Except.error e => ([], some e)
  | Except.ok _ =>
    match env.makeDataDir with
    | some e => ([], some e)
    | none =>
      match env.newClient with
      | some e => ([], some e)
      | none =>
        match (if skipCompile then none else env.compileStep) with
        | some e => ([], some e)
        | none =>
          match env.initStep with
          | some e => ([], some e)
          | none =>
            match env.startStep with
            | some e => ([], some e)
            | none =>
              if env.running = false then
                ([], some "unable to connect to client")
              else
                match env.dial with
                | some e => ([], some e)
                | none =>
                  match env.blockNumber with
                  | Except.error e => ([RpcCall.blockNumber], some e)
                  | Except.ok num =>
                    if num = 1 then ([RpcCall.blockNumber], none)
                    else ([RpcCall.blockNumber],
                          some "chain not loaded correctly")

/-! ## Concrete fixtures used by witnesses -/

/-- The client arguments built by the harness driver. -/
def defaultArgs : ClientArgs :=
  { FakePow := true, LogLevel := LogLevel.Info, DataDir := "datadir",
    GenesisPath := "genesis.json", ChainPath := "chain.rlp" }

/-- An environment in which every stage up to the RPC attach succeeds and
the attach itself fails. -/
def attachFailEnv : InlineEnv :=
  { runGeth := none, startConsole := none,
    attach := some "dial unix: connect: no such file",
    blockByNumber := Except.error "not attached" }

/-- A `runCmd` outcome where the `geth init` invocation exits non-zero. -/
def initFailExec : Invocation → Option String :=
  fun inv => if inv.args.contains "init" then some "exit status 1" else none

/-! ## Claims -/

/-- C10: `ParseLogLevel` accepts exactly the strings `none`, `error`,
`warn`, `info`, `debug`, and `Trace` (capital T), mapping them to the six
log levels in order (numeric values 0 through 5); every other string,
including lowercase `trace`, yields an error. -/
theorem parseLogLevel_exact :
    (∀ s : String,
       s ∉ (["none", "error", "warn", "info", "debug", "Trace"] : List String) →
       ParseLogLevel s = Except.error ("unknown log level: " ++ s))
  ∧ ParseLogLevel "none" = Except.ok LogLevel.None
  ∧ ParseLogLevel "error" = Except.ok LogLevel.Err
  ∧ ParseLogLevel "warn" = Except.ok LogLevel.Warn
  ∧ ParseLogLevel "info" = Except.ok LogLevel.Info
  ∧ ParseLogLevel "debug" = Except.ok LogLevel.Debug
  ∧ ParseLogLevel "Trace" = Except.ok LogLevel.Trace
  ∧ LogLevel.None.toNat = 0 ∧ LogLevel.Err.toNat = 1
  ∧ LogLevel.Warn.toNat = 2 ∧ LogLevel.Info.toNat = 3
  ∧ LogLevel.Debug.toNat = 4 ∧ LogLevel.Trace.toNat = 5 := by
  refine ⟨?_, rfl, rfl, rfl, rfl, rfl, rfl, rfl, rfl, rfl, rfl, rfl, rfl⟩
  intro s hs
  simp only [List.mem_cons, List.not_mem_nil, or_false, not_or] at hs
  obtain ⟨h1, h2, h3, h4, h5, h6⟩ := hs
  simp [ParseLogLevel, h1, h2, h3, h4, h5, h6]

/-- Witness for C10: lowercase `trace` is rejected. -/
theorem parseLogLevel_exact_witness :
    ParseLogLevel "trace" = Except.error ("unknown log level: " ++ "trace") :=
  parseLogLevel_exact.1 "trace" (by decide)

/-- C2 counterexample: `Close` invoked from the initial lifecycle state,
where no subprocess was ever started, dereferences the nil `cmd` handle —
a crash, modelled as the `none` result. -/
theorem close_initial_state_crashes :
    gethClient.Close (newGethClient "go-ethereum" defaultArgs) = none := rfl

/-- C2 (amended): invoking `Close` on a controller whose subprocess was
started successfully (command and process handles present) never crashes:
it kills the process, removes the scoped data directory and returns a nil
error, and — the call leaving the controller unchanged — repeated
invocations behave identically; but from a state without a started
subprocess, `Close` dereferences a nil pointer. -/
theorem close_after_start_safe (g : gethClient) (c : Cmd) (p : Process)
    (h1 : g.cmd = some c) (h2 : c.process = some p) :
    gethClient.Close g =
      some ({ killedPid := p.pid, removedDir := g.args.DataDir }, none) := by
  simp [gethClient.Close, h1, h2]

/-- Witness for the amended C2: a started client closes cleanly. -/
theorem close_after_start_safe_witness :
    gethClient.Close
        { cmd := some { process := some { pid := 7 } },
          path := "go-ethereum", args := defaultArgs } =
      some ({ killedPid := 7, removedDir := "datadir" }, none) :=
  close_after_start_safe
    { cmd := some { process := some { pid := 7 } },
      path := "go-ethereum", args := defaultArgs }
    { process := some { pid := 7 } } { pid := 7 } rfl rfl

/-- C3 (code bug): when `node.Attach` fails, the inline `checkFlag`
returns a nil error (the source's `if err != nil { return nil }`), so the
program prints the success confirmation `Flag captured.` and exits 0 —
instead of propagating the stage's error, printing a diagnostic to the
error stream and exiting non-zero. -/
theorem attach_failure_masks_error :
    checkFlag false attachFailEnv = ([], none)
  ∧ mainInline false attachFailEnv =
      { stdout := ["Flag captured."], errStream := [], exitCode := 0 } :=
  ⟨rfl, rfl⟩

/-- C9: `gethClient.Init` runs the genesis-import (`geth init`) invocation
before the chain-import (`geth import`) invocation; a genesis-import
failure is returned with the underlying error and the chain-import is never
attempted; a chain-import failure is returned with the underlying error;
only when both succeed does `Init` return nil. -/
theorem geth_init_sequencing (g : gethClient) :
    (∀ (exec : Invocation → Option String) (e : String),
       exec (initInvocation g) = some e →
       gethClient.Init exec g = ([initInvocation g], some e))
  ∧ (∀ (exec : Invocation → Option String) (e : String),
       exec (initInvocation g) = none → exec (importInvocation g) = some e →
       gethClient.Init exec g =
         ([initInvocation g, importInvocation g], some e))
  ∧ (∀ (exec : Invocation → Option String),
       exec (initInvocation g) = none → exec (importInvocation g) = none →
       gethClient.Init exec g =
         ([initInvocation g, importInvocation g], none)) := by
  refine ⟨?_, ?_, ?_⟩
  · intro exec e h
    simp [gethClient.Init, h]
  · intro exec e h1 h2
    simp [gethClient.Init, h1, h2]
  · intro exec h1 h2
    simp [gethClient.Init, h1, h2]

/-- Witness for C9: when `geth init` exits non-zero, only that invocation
runs and its error is returned. -/
theorem geth_init_sequencing_witness :
    gethClient.Init initFailExec (newGethClient "go-ethereum" defaultArgs) =
      ([initInvocation (newGethClient "go-ethereum" defaultArgs)],
       some "exit status 1") :=
  (geth_init_sequencing (newGethClient "go-ethereum" defaultArgs)).1
    initFailExec "exit status 1" rfl

/-- When no attempt ever succeeds, the poll loop runs one attempt per time
unit until the deadline and returns a negative result exactly when the
deadline fires. -/
theorem runningSteps_never (attempt : Nat → Attempt)
    (hnever : ∀ u, attempt u ≠ Attempt.success) :
    ∀ (n t : Nat),
      runningSteps attempt n t = (false, t + n, List.range' t n) := by
  intro n
  induction n with
  | zero => intro t; simp [runningSteps]
  | succ n ih =>
    intro t
    rw [runningSteps]
    cases ha : attempt t with
    | success => exact absurd ha (hnever t)
    | dialErr =>
      simp only [ih (t + 1), List.range'_succ, Prod.mk.injEq, true_and,
        and_true]
      omega
    | blockNumberErr =>
      simp only [ih (t + 1), List.range'_succ, Prod.mk.injEq, true_and,
        and_true]
      omega

/-- C5: if the client never becomes reachable, `Running` returns a negative
result exactly when the deadline fires — at the deadline, never earlier and
never later — and every dial attempt it makes happens strictly before the
deadline, so no retry occurs once the deadline or cancellation has fired. -/
theorem running_timeout_boundary (g : gethClient) (attempt : Nat → Attempt)
    (deadline t : Nat)
    (hnever : ∀ u, attempt u ≠ Attempt.success) (ht : t ≤ deadline) :
    (g.Running attempt deadline t).1 = false
  ∧ (g.Running attempt deadline t).2.1 = deadline
  ∧ ∀ a ∈ (g.Running attempt deadline t).2.2, t ≤ a ∧ a < deadline := by
  have h : g.Running attempt deadline t =
      (false, t + (deadline - t), List.range' t (deadline - t)) := by
    unfold gethClient.Running
    exact runningSteps_never attempt hnever (deadline - t) t
  rw [h]
  refine ⟨rfl, ?_, ?_⟩
  · show t + (deadline - t) = deadline
    omega
  · intro a ha
    have ha' : a ∈ List.range' t (deadline - t) := ha
    rw [List.mem_range'_1] at ha'
    omega

/-- Witness for C5: with every attempt failing to dial, a poll with
deadline 3 entered at time 0 returns false at time 3 with all attempts
before the deadline. -/
theorem running_timeout_boundary_witness :
    ((newGethClient "go-ethereum" defaultArgs).Running
        (fun _ => Attempt.dialErr) 3 0).1 = false
  ∧ ((newGethClient "go-ethereum" defaultArgs).Running
        (fun _ => Attempt.dialErr) 3 0).2.1 = 3
  ∧ ∀ a ∈ ((newGethClient "go-ethereum" defaultArgs).Running
        (fun _ => Attempt.dialErr) 3 0).2.2, 0 ≤ a ∧ a < 3 :=
  running_timeout_boundary (newGethClient "go-ethereum" defaultArgs)
    (fun _ => Attempt.dialErr) 3 0 (fun _ h => Attempt.noConfusion h)
    (by omega)

/-- Once the byte stream is known, `blocksFromFile` is the decode loop over
the decoded stream items, prefixed by the genesis block on success. -/
theorem blocksFromFile_ok_bytes (gunzip : List Nat → Except String (List Nat))
    (rlpDecode : List Nat → List StreamItem) (f : ChainFile) (gblock : Block)
    (bytes : List Nat) (hb : effectiveBytes gunzip f = Except.ok bytes) :
    blocksFromFile gunzip rlpDecode f gblock =
      match decodeBlocks (rlpDecode bytes) 0 with
      | Except.ok bs => Except.ok (gblock :: bs)
      | Except.error e => Except.error e := by
  unfold blocksFromFile
  rw [hb]

/-- C1: loading succeeds only if every decoded stream item at 0-indexed
position `k` is a block carrying sequence number `k + 1`; the first
violation makes loading fail with a `sequenceError` naming that index and
the offending number, so no chain is returned. -/
theorem chain_sequence_invariant
    (gunzip : List Nat → Except String (List Nat))
    (rlpDecode : List Nat → List StreamItem)
    (f : ChainFile) (gblock : Block) (bytes : List Nat)
    (hb : effectiveBytes gunzip f = Except.ok bytes) :
    (∀ bs, blocksFromFile gunzip rlpDecode f gblock = Except.ok bs →
       ∀ (k : Nat) (it : StreamItem), (rlpDecode bytes)[k]? = some it →
         ∃ b, it = StreamItem.ok b ∧ b.number = k + 1)
  ∧ (∀ (j : Nat) (b : Block),
       (rlpDecode bytes)[j]? = some (StreamItem.ok b) →
       b.number ≠ j + 1 →
       (∀ (k : Nat) (it : StreamItem), k < j →
         (rlpDecode bytes)[k]? = some it →
         ∃ bk, it = StreamItem.ok bk ∧ bk.number = k + 1) →
       blocksFromFile gunzip rlpDecode f gblock =
         Except.error (LoadError.sequenceError j b.number)) := by
  constructor
  · intro bs h k it hk
    rw [blocksFromFile_ok_bytes gunzip rlpDecode f gblock bytes hb] at h
    cases hd : decodeBlocks (rlpDecode bytes) 0 with
    | error e => rw [hd] at h; simp at h
    | ok bs' =>
      rw [hd] at h
      obtain ⟨-, hall⟩ := decodeBlocks_ok (rlpDecode bytes) 0 bs' hd
      obtain ⟨b, hb', hn⟩ := hall k it hk
      exact ⟨b, hb', by omega⟩
  · intro j b hj hne hpre
    have hseq := decodeBlocks_seq_error (rlpDecode bytes) 0 j b hj
      (by omega) ?_
    · rw [blocksFromFile_ok_bytes gunzip rlpDecode f gblock bytes hb, hseq]
      simp
    · intro k it hk hkit
      obtain ⟨bk, hbk, hnk⟩ := hpre k it hk hkit
      exact ⟨bk, hbk, by omega⟩

/-- Once the genesis is parsed, `loadChain` is determined by the block
stream. -/
theorem loadChain_ok_gen (gunzip : List Nat → Except String (List Nat))
    (rlpDecode : List Nat → List StreamItem) (toBlock : Genesis → Block)
    (genesisResult : Except String Genesis) (f : ChainFile) (gen : Genesis)
    (hg : genesisResult = Except.ok gen) :
    loadChain gunzip rlpDecode toBlock genesisResult f =
      match blocksFromFile gunzip rlpDecode f (toBlock gen) with
      | Except.error e => Except.error e
      | Except.ok blocks =>
        Except.ok { genesis := gen, blocks := blocks,
                    chainConfig := gen.chainId } := by
  unfold loadChain
  rw [hg]

/-- C6: every successful load yields a chain whose first element is the
genesis block derived from the genesis spec, whose remaining elements are
the decoded blocks in stream order, and whose length is the number of
decoded blocks plus one. -/
theorem loadChain_chain_shape
    (gunzip : List Nat → Except String (List Nat))
    (rlpDecode : List Nat → List StreamItem)
    (toBlock : Genesis → Block) (genesisResult : Except String Genesis)
    (f : ChainFile) (c : Chain)
    (h : loadChain gunzip rlpDecode toBlock genesisResult f = Except.ok c) :
    ∃ gen bytes, genesisResult = Except.ok gen ∧
      effectiveBytes gunzip f = Except.ok bytes ∧
      c.genesis = gen ∧
      c.blocks = toBlock gen :: okBlocks (rlpDecode bytes) ∧
      c.blocks.head? = some (toBlock gen) ∧
      c.blocks.length = (okBlocks (rlpDecode bytes)).length + 1 := by
  cases hg : genesisResult with
  | error e => unfold loadChain at h; rw [hg] at h; simp at h
  | ok gen =>
    rw [loadChain_ok_gen gunzip rlpDecode toBlock genesisResult f gen hg]
      at h
    cases hbf : blocksFromFile gunzip rlpDecode f (toBlock gen) with
    | error e => rw [hbf] at h; simp at h
    | ok blocks =>
      rw [hbf] at h
      simp only [Except.ok.injEq] at h
      cases hby : effectiveBytes gunzip f with
      | error e => unfold blocksFromFile at hbf; rw [hby] at hbf; simp at hbf
      | ok bytes =>
        rw [blocksFromFile_ok_bytes gunzip rlpDecode f (toBlock gen) bytes
          hby] at hbf
        cases hd : decodeBlocks (rlpDecode bytes) 0 with
        | error e => rw [hd] at hbf; simp at hbf
        | ok bs =>
          rw [hd] at hbf
          simp only [Except.ok.injEq] at hbf
          obtain ⟨hbs, -⟩ := decodeBlocks_ok (rlpDecode bytes) 0 bs hd
          refine ⟨gen, bytes, rfl, rfl, ?_, ?_, ?_, ?_⟩
          · rw [← h]
          · rw [← h, ← hbf, hbs]
          · rw [← h, ← hbf]
            simp
          · rw [← h, ← hbf, hbs]
            simp

/-- C7: a decode failure before end-of-stream is fatal and reported as a
`decodeError` carrying the zero-indexed stream position; and every
fixture-loading error — a block-stream error or a genesis parse error —
makes `loadChain` return that error and no chain at all. -/
theorem decode_failure_fatal
    (gunzip : List Nat → Except String (List Nat))
    (rlpDecode : List Nat → List StreamItem)
    (toBlock : Genesis → Block) (genesisResult : Except String Genesis)
    (f : ChainFile) :
    (∀ (gblock : Block) (bytes : List Nat) (j : Nat) (cause : String),
       effectiveBytes gunzip f = Except.ok bytes →
       (rlpDecode bytes)[j]? = some (StreamItem.err cause) →
       (∀ (k : Nat) (it : StreamItem), k < j →
         (rlpDecode bytes)[k]? = some it →
         ∃ bk, it = StreamItem.ok bk ∧ bk.number = k + 1) →
       blocksFromFile gunzip rlpDecode f gblock =
         Except.error (LoadError.decodeError j cause))
  ∧ (∀ (e : LoadError) (gen : Genesis), genesisResult = Except.ok gen →
       blocksFromFile gunzip rlpDecode f (toBlock gen) = Except.error e →
       loadChain gunzip rlpDecode toBlock genesisResult f =
         Except.error e)
  ∧ (∀ e : String, genesisResult = Except.error e →
       loadChain gunzip rlpDecode toBlock genesisResult f =
         Except.error (LoadError.genesisError e)) := by
  refine ⟨?_, ?_, ?_⟩
  · intro gblock bytes j cause hby hj hpre
    have hd := decodeBlocks_decode_error (rlpDecode bytes) 0 j cause hj ?_
    · rw [blocksFromFile_ok_bytes gunzip rlpDecode f gblock bytes hby, hd]
      simp
    · intro k it hk hkit
      obtain ⟨bk, hbk, hnk⟩ := hpre k it hk hkit
      exact ⟨bk, hbk, by omega⟩
  · intro e gen hg hbf
    rw [loadChain_ok_gen gunzip rlpDecode toBlock genesisResult f gen hg,
      hbf]
  · intro e hg
    unfold loadChain
    rw [hg]

/-- C8: a chain file whose name carries the `.gz` suffix and whose content
decompresses to the byte content of an uncompressed chain file loads to
exactly the same result — the same blocks on success and the same error
otherwise — both through `blocksFromFile` and through `loadChain`. -/
theorem compression_transparency
    (gunzip : List Nat → Except String (List Nat))
    (rlpDecode : List Nat → List StreamItem)
    (toBlock : Genesis → Block) (genesisResult : Except String Genesis)
    (fgz f : ChainFile) (gblock : Block)
    (hgz : hasSuffix fgz.name ".gz" = true)
    (hplain : hasSuffix f.name ".gz" = false)
    (hrel : gunzip fgz.content = Except.ok f.content) :
    blocksFromFile gunzip rlpDecode fgz gblock =
      blocksFromFile gunzip rlpDecode f gblock
  ∧ loadChain gunzip rlpDecode toBlock genesisResult fgz =
      loadChain gunzip rlpDecode toBlock genesisResult f := by
  have hbytes : effectiveBytes gunzip fgz = effectiveBytes gunzip f := by
    unfold effectiveBytes
    rw [hgz, hplain]
    simp [hrel]
  have hbf : ∀ b, blocksFromFile gunzip rlpDecode fgz b =
      blocksFromFile gunzip rlpDecode f b := by
    intro b
    unfold blocksFromFile
    rw [hbytes]
  refine ⟨hbf gblock, ?_⟩
  unfold loadChain
  cases genesisResult with
  | error e => rfl
  | ok gen =>
    dsimp only
    rw [hbf (toBlock gen)]

/-- C4: on readiness success, each verification driver variant issues
exactly one RPC query for the current chain head and compares it against a
hard-coded expected value — the harness variant queries the block number
and requires `1`, the inline variants query block 1 and require the
hard-coded hash; a mismatch yields a failure result and a match yields
success. -/
theorem head_query_single_assertion :
    (∀ (logLevelStr : String) (skipCompile : Bool) (env : HarnessEnv),
       (∃ l, ParseLogLevel logLevelStr = Except.ok l) →
       env.makeDataDir = none → env.newClient = none →
       (if skipCompile then none else env.compileStep) = none →
       env.initStep = none → env.startStep = none →
       env.running = true → env.dial = none →
       (harnessCheckFlag logLevelStr skipCompile env).1 = [RpcCall.blockNumber]
       ∧ ((harnessCheckFlag logLevelStr skipCompile env).2 = none ↔
            env.blockNumber = Except.ok 1))
  ∧ (∀ (devMode : Bool) (env : InlineEnv),
       env.runGeth = none →
       (if devMode then env.startConsole else none) = none →
       env.attach = none →
       (checkFlag devMode env).1 = [RpcCall.blockByNumber 1]
       ∧ ((checkFlag devMode env).2 = none ↔
            ∃ b, env.blockByNumber = Except.ok b ∧ b.hash = expectedHash)) := by
  constructor
  · intro logLevelStr skipCompile env hl hmd hnc hcomp hinit hstart hrun
      hdial
    obtain ⟨l, hl⟩ := hl
    unfold harnessCheckFlag
    rw [hl, hmd, hnc, hcomp, hinit, hstart, hrun]
    dsimp only
    rw [hdial]
    cases hbn : env.blockNumber with
    | error e => simp [hbn]
    | ok num =>
      by_cases hnum : num = 1
      · subst hnum
        simp
      · simp [hnum]
  · intro devMode env hrg hcon hat
    unfold checkFlag
    rw [hrg, hcon, hat]
    cases hbn : env.blockByNumber with
    | error e => simp
    | ok b =>
      by_cases hh : b.hash = expectedHash
      · simp [hh]
      · simp [hh]

/-! ## Witness fixtures for the loader and driver claims -/

/-- A gzip decompressor that is never invoked on plain files. -/
def gunzipId : List Nat → Except String (List Nat) :=
  fun b => Except.ok b

/-- An uncompressed chain file. -/
def plainFile : ChainFile := { name := "chain.rlp", content := [] }

/-- A compressed chain file whose content decompresses (under
`gunzipPair`) to `plainFile`'s content. -/
def gzFile : ChainFile := { name := "chain.rlp.gz", content := [31, 139] }

/-- A decompressor relating `gzFile` to `plainFile`. -/
def gunzipPair : List Nat → Except String (List Nat) :=
  fun b =>
    if b = [31, 139] then Except.ok [] else Except.error "gzip: bad header"

/-- A genesis block fixture. -/
def genesisBlock : Block := { number := 0, hash := 0 }

/-- A stream whose first block carries number 2 instead of 1. -/
def rlpBadFirst : List Nat → List StreamItem :=
  fun _ => [StreamItem.ok { number := 2, hash := 0 }]

/-- A stream whose single block is correctly numbered 1. -/
def rlpOneGood : List Nat → List StreamItem :=
  fun _ => [StreamItem.ok { number := 1, hash := 5 }]

/-- A stream whose first decode attempt fails. -/
def rlpErrFirst : List Nat → List StreamItem :=
  fun _ => [StreamItem.err "rlp: expected input list"]

/-- A genesis spec fixture. -/
def sampleGenesis : Genesis :=
  { chainId := 7, difficulty := 1234, baseFee := 1000000000, alloc := [] }

/-- A genesis-block derivation fixture. -/
def toBlockConst : Genesis → Block :=
  fun g => { number := 0, hash := g.chainId }

/-- The chain produced by loading `rlpOneGood` under the fixtures above. -/
def sampleChain : Chain :=
  { genesis := sampleGenesis
    blocks := [toBlockConst sampleGenesis, { number := 1, hash := 5 }]
    chainConfig := 7 }

/-- A harness environment in which every stage succeeds and the head query
answers 1. -/
def readyEnv : HarnessEnv :=
  { makeDataDir := none, newClient := none, compileStep := none,
    initStep := none, startStep := none, running := true, dial := none,
    blockNumber := Except.ok 1 }

/-- An inline environment in which every stage succeeds and block 1 carries
the expected hash. -/
def readyInlineEnv : InlineEnv :=
  { runGeth := none, startConsole := none, attach := none,
    blockByNumber := Except.ok { number := 1, hash := expectedHash } }

/-- Witness for C1: a stream whose block at position 0 carries number 2
makes loading fail with `sequenceError` at index 0 reporting number 2. -/
theorem chain_sequence_invariant_witness :
    blocksFromFile gunzipId rlpBadFirst plainFile genesisBlock =
      Except.error (LoadError.sequenceError 0 2) :=
  (chain_sequence_invariant gunzipId rlpBadFirst plainFile genesisBlock []
      rfl).2 0 { number := 2, hash := 0 } rfl (by decide)
    (fun k _ hk _ => absurd hk (Nat.not_lt_zero k))

/-- Witness for C4: both drivers issue exactly one head query and succeed
on the expected value. -/
theorem head_query_single_assertion_witness :
    ((harnessCheckFlag "info" false readyEnv).1 = [RpcCall.blockNumber]
     ∧ ((harnessCheckFlag "info" false readyEnv).2 = none ↔
          readyEnv.blockNumber = Except.ok 1))
  ∧ ((checkFlag false readyInlineEnv).1 = [RpcCall.blockByNumber 1]
     ∧ ((checkFlag false readyInlineEnv).2 = none ↔
          ∃ b, readyInlineEnv.blockByNumber = Except.ok b ∧
            b.hash = expectedHash)) :=
  ⟨head_query_single_assertion.1 "info" false readyEnv
      ⟨LogLevel.Info, rfl⟩ rfl rfl rfl rfl rfl rfl rfl,
   head_query_single_assertion.2 false readyInlineEnv rfl rfl rfl⟩

/-- Witness for C6: loading a one-block stream yields the genesis block
followed by that block, with length 2. -/
theorem loadChain_chain_shape_witness :
    ∃ gen bytes,
      (Except.ok sampleGenesis : Except String Genesis) = Except.ok gen ∧
      effectiveBytes gunzipId plainFile = Except.ok bytes ∧
      sampleChain.genesis = gen ∧
      sampleChain.blocks = toBlockConst gen :: okBlocks (rlpOneGood bytes) ∧
      sampleChain.blocks.head? = some (toBlockConst gen) ∧
      sampleChain.blocks.length = (okBlocks (rlpOneGood bytes)).length + 1 :=
  loadChain_chain_shape gunzipId rlpOneGood toBlockConst
    (Except.ok sampleGenesis) plainFile sampleChain rfl

/-- Witness for C7: a stream whose first decode attempt fails makes loading
fail with `decodeError` at index 0 carrying the cause. -/
theorem decode_failure_fatal_witness :
    blocksFromFile gunzipId rlpErrFirst plainFile genesisBlock =
      Except.error (LoadError.decodeError 0 "rlp: expected input list") :=
  (decode_failure_fatal gunzipId rlpErrFirst toBlockConst
      (Except.ok sampleGenesis) plainFile).1 genesisBlock [] 0
    "rlp: expected input list" rfl rfl
    (fun k _ hk _ => absurd hk (Nat.not_lt_zero k))

/-- Witness for C8: the gzip-related pair of chain files load to identical
results. -/
theorem compression_transparency_witness :
    blocksFromFile gunzipPair rlpOneGood gzFile genesisBlock =
      blocksFromFile gunzipPair rlpOneGood plainFile genesisBlock
  ∧ loadChain gunzipPair rlpOneGood toBlockConst (Except.ok sampleGenesis)
      gzFile =
    loadChain gunzipPair rlpOneGood toBlockConst (Except.ok sampleGenesis)
      plainFile :=
  compression_transparency gunzipPair rlpOneGood toBlockConst
    (Except.ok sampleGenesis) gzFile plainFile genesisBlock rfl rfl rfl

end ProtocolCTF
